import Mathlib

/-
  Shallow embedding of the meme-trader trading engine.

  Sources:
  - `MemeTrader` (per-symbol trading agent): src/unnamed/part_007, first
    document (computeSignal, handleSignal, check, setOrder).
  - `MyTradingBotApp` (orchestrator): src/src/index.ts, first document
    (updateStats, createTraders, order reconciliation inside check).
  - `Order`, `Stats`, `SymbolDesc` types: src/unnamed/part_001 and
    src/src/kucoin-api.ts.

  Conventions: decimal amounts are modelled as rationals, timestamps as
  integers, config periods and counts as naturals.  Asynchronous effectful
  steps (candle fetch, indicator run, order placement, stats fetch) are
  modelled by passing their outcome (`Except`/`Bool`) as an explicit
  argument; a promise-chain `catch` becomes a total function returning the
  state the mutations had reached when the rejection occurred.
-/

/-- Order side, the TS union `"buy" | "sell"`. -/
inductive Side where
  | buy
  | sell
deriving DecidableEq, Repr

/-- The `Signal` const object of part_007: `None` is `undefined` in TS. -/
inductive Signal where
  | None
  | BUY
  | SELL
deriving DecidableEq, Repr

/-- The `State` const object of part_007: `Idle` is `undefined` in TS. -/
inductive State where
  | Idle
  | BUYING
  | POSITION
  | SELLING
deriving DecidableEq, Repr

/-- OchlData of part_007. -/
structure Candle where
  time : ℤ
  open_ : ℚ
  high : ℚ
  low : ℚ
  close : ℚ
deriving DecidableEq, Repr

/-- The fields of the KuCoin `Order` type (src/unnamed/part_001) that the
core consumes: symbol, side, isActive, dealSize, createdAt. -/
structure Order where
  symbol : String
  side : Side
  isActive : Bool
  dealSize : ℚ
  createdAt : ℤ
deriving DecidableEq, Repr

/-- The mutable fields of a `MemeTrader` instance (src/unnamed/part_007)
relevant to the verified claims, plus the config fields read by them. -/
structure Trader where
  state : State
  position : ℚ
  lastSignal : Signal
  candles : List Candle
  running : Bool
  drainMode : Bool
  tradeBudget : ℚ
  lastOrder : Option Order
  lastUpdate : ℤ
deriving DecidableEq, Repr

/-- The fields of the KuCoin 24h `Stats` type (src/src/kucoin-api.ts) that
the orchestrator consumes: time, symbol, volValue, last, changeRate. -/
structure Stats where
  time : ℤ
  symbol : String
  volValue : ℚ
  last : ℚ
  changeRate : ℚ
deriving DecidableEq, Repr

/-- The fields of `SymbolDesc` (src/src/kucoin-api.ts) that the universe
filter consumes. -/
structure SymbolDesc where
  symbol : String
  quoteCurrency : String
  enableTrading : Bool
deriving DecidableEq, Repr

/-- The `stats` registry of `MyTradingBotApp`, a map from symbol to its
cached 24h statistics. -/
def StatsMap : Type := String → Option Stats

/-- `this.stats[symbol] = stats` (src/src/index.ts line 381). -/
def setStat (m : StatsMap) (s : String) (v : Stats) : StatsMap :=
  fun k => if k = s then some v else m k

namespace MemeTrader

/-- `MemeTrader.setOrder` (src/unnamed/part_007 lines 328-344): maps the
exchange order feed onto agent state.  If side is sell: active gives
SELLING, inactive gives Idle with position 0.  If side is buy: active
gives BUYING, inactive gives POSITION with position := dealSize (no guard
on dealSize).  Finally lastOrder := order. -/
def setOrder (t : Trader) (o : Order) : Trader :=
  let t1 :=
    match o.side with
    | Side.sell =>
        if o.isActive then { t with state := State.SELLING }
        else { t with state := State.Idle, position := 0 }
    | Side.buy =>
        if o.isActive then { t with state := State.BUYING }
        else { t with state := State.POSITION, position := o.dealSize }
  { t1 with lastOrder := some o }

/-- Specification-side abbreviation for the state that §4.2's `setOrder`
mapping assigns to an order (used to state that the mapping depends only
on the order, never on the prior state). -/
def orderTargetState (o : Order) : State :=
  match o.side, o.isActive with
  | Side.buy, true => State.BUYING
  | Side.buy, false => State.POSITION
  | Side.sell, true => State.SELLING
  | Side.sell, false => State.Idle

/-- Specification-side abbreviation for the position after `setOrder`,
given the prior position `p`. -/
def orderTargetPosition (o : Order) (p : ℚ) : ℚ :=
  match o.side, o.isActive with
  | Side.buy, false => o.dealSize
  | Side.sell, false => 0
  | _, _ => p

/-- The §4.2 claim for `setOrder` as literally stated (with the table's
`dealSize > 0` guard): each order event either performs its table
transition or, when its guard fails, performs no transition at all. -/
def claimedSetOrderSpec (t t' : Trader) (o : Order) : Prop :=
  (o.side = Side.buy ∧ o.isActive = true → t'.state = State.BUYING) ∧
  (o.side = Side.buy ∧ o.isActive = false ∧ o.dealSize > 0 →
    t'.state = State.POSITION ∧ t'.position = o.dealSize) ∧
  (o.side = Side.buy ∧ o.isActive = false ∧ ¬o.dealSize > 0 →
    t'.state = t.state ∧ t'.position = t.position) ∧
  (o.side = Side.sell ∧ o.isActive = true → t'.state = State.SELLING) ∧
  (o.side = Side.sell ∧ o.isActive = false →
    t'.state = State.Idle ∧ t'.position = 0)

/-- The `testBuySignal` loop of `computeSignal` (src/unnamed/part_007
lines 226-229): false iff some adjacent pair has `next < current`. -/
def pairwiseNoDecrease : List ℚ → Bool
  | x :: y :: rest => if y < x then false else pairwiseNoDecrease (y :: rest)
  | _ => true

/-- The `testSellSignal` loop of `computeSignal` (src/unnamed/part_007
lines 232-236): false iff some adjacent pair has `next > current`. -/
def pairwiseNoIncrease : List ℚ → Bool
  | x :: y :: rest => if x < y then false else pairwiseNoIncrease (y :: rest)
  | _ => true

/-- JS `array.slice(-n)` for `n > 0`: the last `n` elements (the whole
list when it is shorter than `n`). -/
def lastN (n : Nat) (l : List ℚ) : List ℚ :=
  l.drop (l.length - n)

/-- `MemeTrader.computeSignal` (src/unnamed/part_007 lines 215-248),
abstracted over the histogram series produced by the external `macd`
function: if more than `slowPeriod` samples exist, BUY iff the last
`upConfirmations + 1` histogram values have no adjacent decrease, else
SELL iff the last `downConfirmations + 1` have no adjacent increase, else
None.  With at most `slowPeriod` samples the TS function returns
`undefined`, which is `Signal.None`. -/
def computeSignal (slowPeriod upConfirmations downConfirmations : Nat)
    (samples : List ℚ) : Signal :=
  if slowPeriod < samples.length then
    let upSamples := lastN (upConfirmations + 1) samples
    let testBuySignal := pairwiseNoDecrease upSamples
    let downSamples := lastN (downConfirmations + 1) samples
    let testSellSignal := pairwiseNoIncrease downSamples
    if testBuySignal then Signal.BUY
    else if testSellSignal then Signal.SELL
    else Signal.None
  else Signal.None

/-- `MemeTrader.handleSignal` (src/unnamed/part_007 lines 250-302).
`placeOk` is the outcome of `api.placeMarketOrder` (false = the promise
rejects, in which case the `.then` continuation mutating state does not
run).  The returned Bool records whether a market order call was made. -/
def handleSignal (t : Trader) (signal : Signal) (placeOk : Bool) :
    Trader × Bool :=
  if t.lastSignal ≠ Signal.BUY ∧ signal = Signal.BUY ∧
      t.state = State.Idle ∧ t.drainMode = false then
    if placeOk then
      ({ t with state := State.BUYING, lastSignal := signal }, true)
    else (t, true)
  else if t.lastSignal ≠ Signal.SELL ∧ signal = Signal.SELL ∧
      t.state = State.POSITION then
    if placeOk then
      ({ t with state := State.SELLING, lastSignal := signal }, true)
    else (t, true)
  else (t, false)

/-- A run of consecutive ticks all delivering the same signal: applies
`handleSignal` once per element of `oks` (each element being that tick's
order-placement outcome) and counts the market order calls made. -/
def runSignals (t : Trader) (signal : Signal) : List Bool → Trader × Nat
  | [] => (t, 0)
  | ok :: rest =>
    let step := handleSignal t signal ok
    let next := runSignals step.1 signal rest
    (next.1, (if step.2 then 1 else 0) + next.2)

/-- The candle-merge loop of `updateCandles` (src/unnamed/part_007 lines
196-207): each fetched candle is appended only when no candle with the
same timestamp is already present. -/
def mergeCandles (existing incoming : List Candle) : List Candle :=
  incoming.foldl
    (fun acc c => if acc.any (fun item => item.time == c.time) then acc
                  else acc ++ [c])
    existing

/-- `MemeTrader.check` (src/unnamed/part_007 lines 304-326).  `run` is the
outcome of the probabilistic rate-limit gate; `fetchRes` the outcome of
`updateCandles`'s API call; `indicRes` the outcome of running the `macd`
indicator on the merged series; `placeOk` the outcome of a market order
placement, should one be attempted.  The trailing `.catch` of the TS
promise chain makes the function total: any error leaves the trader in
whatever state the successful prefix of the chain had produced.  The Bool
records whether a market order call was made. -/
def check (slowPeriod upConfirmations downConfirmations : Nat)
    (t : Trader) (run : Bool) (now : ℤ)
    (fetchRes : Except String (List Candle))
    (indicRes : Except String (List ℚ))
    (placeOk : Bool) : Trader × Bool :=
  if run = false then (t, false)
  else
    let t0 := { t with lastUpdate := now }
    match fetchRes with
    | Except.error _ => (t0, false)
    | Except.ok newCandles =>
      let t1 := { t0 with candles := mergeCandles t0.candles newCandles }
      match indicRes with
      | Except.error _ => (t1, false)
      | Except.ok samples =>
        handleSignal t1
          (computeSignal slowPeriod upConfirmations downConfirmations samples)
          placeOk

end MemeTrader

namespace MyTradingBotApp

/-- The order-reconciliation reduce of `MyTradingBotApp.check`
(src/src/index.ts lines 470-473): keeps an order only when no
earlier-listed order has the same symbol (first occurrence in list order
wins). -/
def extractLastOrders (orders : List Order) : List Order :=
  orders.foldl
    (fun p order =>
      if p.any (fun item => item.symbol == order.symbol) then p
      else p ++ [order])
    []

/-- Specification-side recursion equivalent to `extractLastOrders`: keep
the first order of each symbol not yet seen. -/
def keepFirstBySymbol (seen : List String) : List Order → List Order
  | [] => []
  | o :: rest =>
    if o.symbol ∈ seen then keepFirstBySymbol seen rest
    else o :: keepFirstBySymbol (o.symbol :: seen) rest

/-- The static inclusion filter of `updateStats` (src/src/index.ts lines
353-361): trading enabled, USDT quote, not ignored, and on the force list
when one is configured. -/
def staticFilter (ignore force : List String) (symbols : List SymbolDesc) :
    List SymbolDesc :=
  symbols.filter (fun item =>
    item.enableTrading && item.quoteCurrency == "USDT" &&
    !(ignore.contains item.symbol) &&
    (if force.isEmpty then true else force.contains item.symbol))

/-- The staleness filter of `updateStats` (src/src/index.ts lines
363-369): keep a symbol when it has no cached stats or the cached stats
are older than `maxAge` minutes. -/
def staleFilter (stats : StatsMap) (now : ℤ) (maxAge : Nat)
    (symbols : List SymbolDesc) : List SymbolDesc :=
  symbols.filter (fun item =>
    match stats item.symbol with
    | none => true
    | some st => decide (now - st.time > (maxAge : ℤ) * 60 * 1000))

/-- `Math.ceil(universe_size / maxAge) * 2` (src/src/index.ts line 376),
for natural inputs with `maxAge > 0`. -/
def sliceSize (universeSize maxAge : Nat) : Nat :=
  ((universeSize + maxAge - 1) / maxAge) * 2

/-- The per-slice stats fetch chain of `updateStats` (src/src/index.ts
lines 377-385): a `reduce` of promise `then`s, so a rejected fetch skips
every later symbol of the slice; earlier cache writes persist and the
error propagates to the final catch (returned as the second component). -/
def fetchSliceStats (fetch : String → Except String Stats) :
    List String → StatsMap → StatsMap × Option String
  | [], cache => (cache, none)
  | s :: rest, cache =>
    match fetch s with
    | Except.error e => (cache, some e)
    | Except.ok st => fetchSliceStats fetch rest (setStat cache s st)

/-- `MyTradingBotApp.updateStats` (src/src/index.ts lines 347-391).
`symbolsRes` is the outcome of `getSymbolsList` (on error the whole
refresh is aborted by the final catch, state unchanged); `fetch` gives
each symbol's `get24hrStats` outcome.  Returns the new `statsLoaded`
flag, the new stats cache, and the slice of symbols whose stats fetch is
attempted this tick. -/
def updateStats (ignore force : List String) (maxAge : Nat) (now : ℤ)
    (statsLoaded : Bool) (stats : StatsMap)
    (symbolsRes : Except String (List SymbolDesc))
    (fetch : String → Except String Stats) :
    Bool × StatsMap × List String :=
  match symbolsRes with
  | Except.error _ => (statsLoaded, stats, [])
  | Except.ok symbols =>
    let filtered := staticFilter ignore force symbols
    let universeSize := filtered.length
    let toRefresh := staleFilter stats now maxAge filtered
    let statsLoaded1 := if !statsLoaded then toRefresh.isEmpty else statsLoaded
    let slice := (toRefresh.take (sliceSize universeSize maxAge)).map
      (fun item => item.symbol)
    let fetched := fetchSliceStats fetch slice stats
    (statsLoaded1, fetched.1, slice)

/-- One orchestrator tick's inputs to `updateStats`: the clock reading and
the two exchange-call outcomes. -/
structure TickEnv where
  now : ℤ
  symbolsRes : Except String (List SymbolDesc)
  fetch : String → Except String Stats

/-- Iterated `updateStats` over a sequence of ticks, threading the
`statsLoaded` flag and the stats cache. -/
def runTicks (ignore force : List String) (maxAge : Nat) :
    List TickEnv → Bool × StatsMap → Bool × StatsMap
  | [], st => st
  | e :: rest, (b, m) =>
    let r := updateStats ignore force maxAge e.now b m e.symbolsRes e.fetch
    runTicks ignore force maxAge rest (r.1, r.2.1)

/-- `MyTradingBotApp.createTraders` (src/src/index.ts lines 393-448):
returns `none` when the body is suppressed by `statsLoaded` being false,
otherwise the symbols whose traders are created/started after the filter
chain.  `hasTrader` and `isRunning` describe the current trader registry
(a freshly created trader is not running, so passing the last filter is
equivalent to not running). -/
def createTraders (statsLoaded : Bool)
    (minVolume maxVolume minPrice minChange : ℚ) (force : List String)
    (hasTrader isRunning : String → Bool) (stats : List Stats) :
    Option (List String) :=
  if statsLoaded = false then none
  else
    let forced : Stats → Bool := fun item =>
      !force.isEmpty && force.contains item.symbol
    let s1 := stats.filter (fun item =>
      !(hasTrader item.symbol) || !(isRunning item.symbol))
    let s2 := s1.filter (fun item =>
      (decide (minVolume ≤ item.volValue) &&
        decide (item.volValue ≤ maxVolume)) || forced item)
    let s3 := s2.filter (fun item =>
      decide (minPrice ≤ item.last) || forced item)
    let s4 := s3.filter (fun item =>
      decide (minChange ≤ item.changeRate) || forced item)
    some (s4.filterMap (fun item =>
      if isRunning item.symbol then none else some item.symbol))

end MyTradingBotApp

/-- Concrete fixture: a freshly constructed idle trader (the constructor
state of src/unnamed/part_007 lines 119-125). -/
def traderIdle : Trader :=
  { state := State.Idle, position := 0, lastSignal := Signal.None,
    candles := [], running := true, drainMode := false, tradeBudget := 1,
    lastOrder := none, lastUpdate := 0 }

/-- Concrete fixture: a trader that has successfully placed a BUY order
(state BUYING, sticky lastSignal BUY). -/
def traderBuying : Trader :=
  { traderIdle with
    state := State.BUYING, position := 5, lastSignal := Signal.BUY }

/-- Concrete fixture: an inactive (completed) BUY order with dealSize 0. -/
def orderBuyInactiveZero : Order :=
  { symbol := "A-USDT", side := Side.buy, isActive := false, dealSize := 0,
    createdAt := 10 }

/-- Concrete fixture: an inactive (completed) SELL order. -/
def orderSellDone : Order :=
  { symbol := "A-USDT", side := Side.sell, isActive := false, dealSize := 5,
    createdAt := 11 }

/-- Concrete fixture: the older of two same-symbol orders. -/
def orderOldA : Order :=
  { symbol := "A-USDT", side := Side.buy, isActive := false, dealSize := 1,
    createdAt := 1 }

/-- Concrete fixture: the newer of two same-symbol orders. -/
def orderNewA : Order :=
  { symbol := "A-USDT", side := Side.sell, isActive := false, dealSize := 2,
    createdAt := 2 }

/-- Concrete fixture: a 24h statistics record for symbol B-USDT. -/
def statB : Stats :=
  { time := 0, symbol := "B-USDT", volValue := 1, last := 1, changeRate := 1 }

/-- Concrete fixture: a stats fetcher that fails for A-USDT and succeeds
for every other symbol. -/
def fetchFailA : String → Except String Stats :=
  fun s => if s = "A-USDT" then Except.error "boom" else Except.ok statB

/-- Concrete fixture: the empty stats cache. -/
def emptyStats : StatsMap := fun _ => none

namespace MemeTrader

lemma setOrder_components (t : Trader) (o : Order) :
    (setOrder t o).state = orderTargetState o ∧
    (setOrder t o).position = orderTargetPosition o t.position := by
  rcases o with ⟨sym, side, act, ds, ca⟩
  cases side <;> cases act <;>
    simp [setOrder, orderTargetState, orderTargetPosition]

/-- Claim C1 (counterexample): the §4.2 table's `dealSize > 0` guard is
not enforced by `setOrder`.  An inactive BUY order with `dealSize = 0`
still moves a BUYING trader to POSITION (with position 0), a transition
the guarded table does not contain, so the claim as stated is false. -/
theorem setOrder_guard_counterexample :
    ¬ claimedSetOrderSpec traderBuying
        (setOrder traderBuying orderBuyInactiveZero) orderBuyInactiveZero := by
  intro h
  have h3 := h.2.2.1 ⟨rfl, rfl, by decide⟩
  exact absurd h3.1 (by decide)

/-- Claim C1 (amended): `setOrder` maps exchange order state onto agent
state unconditionally — active BUY gives BUYING, inactive BUY gives
POSITION with position := dealSize with no `dealSize > 0` guard, active
SELL gives SELLING, inactive SELL gives IDLE with position := 0 — and the
resulting state depends only on the order, never on the prior state, so
after any sequence of order-feed events the state is the one mapped from
the last event. -/
theorem setOrder_table_unguarded (t : Trader) (o : Order) :
    (setOrder t o).state = orderTargetState o ∧
    (setOrder t o).position = orderTargetPosition o t.position ∧
    ∀ os : List Order, ((os ++ [o]).foldl setOrder t).state = orderTargetState o := by
  refine ⟨(setOrder_components t o).1, (setOrder_components t o).2, fun os => ?_⟩
  rw [List.foldl_append]
  simpa using (setOrder_components (os.foldl setOrder t) o).1

lemma handleSignal_buy_noop (t : Trader) (ok : Bool)
    (h : t.lastSignal = Signal.BUY) :
    handleSignal t Signal.BUY ok = (t, false) := by
  simp [handleSignal, h]

lemma handleSignal_sell_noop (t : Trader) (ok : Bool)
    (h : t.lastSignal = Signal.SELL) :
    handleSignal t Signal.SELL ok = (t, false) := by
  simp [handleSignal, h]

lemma handleSignal_buy_cases (t : Trader) :
    handleSignal t Signal.BUY true = (t, false) ∨
    handleSignal t Signal.BUY true =
      ({ t with state := State.BUYING, lastSignal := Signal.BUY }, true) := by
  unfold handleSignal
  by_cases h : t.lastSignal ≠ Signal.BUY ∧ Signal.BUY = Signal.BUY ∧
      t.state = State.Idle ∧ t.drainMode = false
  · rw [if_pos h]; right; rfl
  · rw [if_neg h, if_neg (fun hc => Signal.noConfusion hc.2.1)]; left; rfl

lemma handleSignal_sell_cases (t : Trader) :
    handleSignal t Signal.SELL true = (t, false) ∨
    handleSignal t Signal.SELL true =
      ({ t with state := State.SELLING, lastSignal := Signal.SELL }, true) := by
  unfold handleSignal
  by_cases h : t.lastSignal ≠ Signal.SELL ∧ Signal.SELL = Signal.SELL ∧
      t.state = State.POSITION
  · rw [if_neg (fun hc => Signal.noConfusion hc.2.1), if_pos h]; right; rfl
  · rw [if_neg (fun hc => Signal.noConfusion hc.2.1), if_neg h]; left; rfl

lemma runSignals_buy_zero : ∀ (oks : List Bool) (t : Trader),
    t.lastSignal = Signal.BUY → runSignals t Signal.BUY oks = (t, 0)
  | [], _, _ => rfl
  | ok :: rest, t, h => by
    simp [runSignals, handleSignal_buy_noop t ok h,
      runSignals_buy_zero rest t h]

lemma runSignals_sell_zero : ∀ (oks : List Bool) (t : Trader),
    t.lastSignal = Signal.SELL → runSignals t Signal.SELL oks = (t, 0)
  | [], _, _ => rfl
  | ok :: rest, t, h => by
    simp [runSignals, handleSignal_sell_noop t ok h,
      runSignals_sell_zero rest t h]

lemma runSignals_buy_le_one : ∀ (oks : List Bool) (t : Trader),
    (∀ b ∈ oks, b = true) → (runSignals t Signal.BUY oks).2 ≤ 1
  | [], _, _ => by simp [runSignals]
  | ok :: rest, t, h => by
    have hok : ok = true := h ok (by simp)
    subst hok
    rcases handleSignal_buy_cases t with hc | hc
    · have ih := runSignals_buy_le_one rest t (fun b hb => h b (by simp [hb]))
      simpa [runSignals, hc] using ih
    · have hz := runSignals_buy_zero rest
        { t with state := State.BUYING, lastSignal := Signal.BUY } rfl
      simp [runSignals, hc, hz]

lemma runSignals_sell_le_one : ∀ (oks : List Bool) (t : Trader),
    (∀ b ∈ oks, b = true) → (runSignals t Signal.SELL oks).2 ≤ 1
  | [], _, _ => by simp [runSignals]
  | ok :: rest, t, h => by
    have hok : ok = true := h ok (by simp)
    subst hok
    rcases handleSignal_sell_cases t with hc | hc
    · have ih := runSignals_sell_le_one rest t (fun b hb => h b (by simp [hb]))
      simpa [runSignals, hc] using ih
    · have hz := runSignals_sell_zero rest
        { t with state := State.SELLING, lastSignal := Signal.SELL } rfl
      simp [runSignals, hc, hz]

/-- Claim C2: the sticky `lastSignal` prevents double submission.  Once
`lastSignal = BUY`, a run of further BUY signals places zero orders; and
along any run of consecutive identical BUY signals whose placements
succeed, at most one market BUY order call is made.  Symmetrically for
SELL. -/
theorem handleSignal_no_double_submit (t : Trader) (oks : List Bool) :
    (t.lastSignal = Signal.BUY → (runSignals t Signal.BUY oks).2 = 0) ∧
    ((∀ b ∈ oks, b = true) → (runSignals t Signal.BUY oks).2 ≤ 1) ∧
    (t.lastSignal = Signal.SELL → (runSignals t Signal.SELL oks).2 = 0) ∧
    ((∀ b ∈ oks, b = true) → (runSignals t Signal.SELL oks).2 ≤ 1) := by
  refine ⟨fun h => ?_, runSignals_buy_le_one oks t, fun h => ?_,
    runSignals_sell_le_one oks t⟩
  · rw [runSignals_buy_zero oks t h]
  · rw [runSignals_sell_zero oks t h]

/-- Witness for claim C2 at concrete inputs. -/
theorem handleSignal_no_double_submit_witness :
    (runSignals traderBuying Signal.BUY [true, true]).2 = 0 ∧
    (runSignals traderIdle Signal.BUY [true, true, true]).2 ≤ 1 :=
  ⟨(handleSignal_no_double_submit traderBuying [true, true]).1 rfl,
   (handleSignal_no_double_submit traderIdle [true, true, true]).2.1 (by decide)⟩

/-- Claim C9: `setOrder` mutates only `state`, `position` and
`lastOrder`; `lastSignal`, `candles`, `running`, `drainMode`,
`tradeBudget` (and `lastUpdate`) are untouched.  Consequently order-feed
reconciliation never clears the sticky `lastSignal`: if it was BUY, no
run of further BUY signals after the reconciliation can place an order. -/
theorem setOrder_frame (t : Trader) (o : Order) :
    (setOrder t o).lastSignal = t.lastSignal ∧
    (setOrder t o).candles = t.candles ∧
    (setOrder t o).running = t.running ∧
    (setOrder t o).drainMode = t.drainMode ∧
    (setOrder t o).tradeBudget = t.tradeBudget ∧
    (setOrder t o).lastUpdate = t.lastUpdate ∧
    (t.lastSignal = Signal.BUY →
      ∀ oks : List Bool, (runSignals (setOrder t o) Signal.BUY oks).2 = 0) := by
  have hframe : (setOrder t o).lastSignal = t.lastSignal ∧
      (setOrder t o).candles = t.candles ∧
      (setOrder t o).running = t.running ∧
      (setOrder t o).drainMode = t.drainMode ∧
      (setOrder t o).tradeBudget = t.tradeBudget ∧
      (setOrder t o).lastUpdate = t.lastUpdate := by
    rcases o with ⟨sym, side, act, ds, ca⟩
    cases side <;> cases act <;> simp [setOrder]
  refine ⟨hframe.1, hframe.2.1, hframe.2.2.1, hframe.2.2.2.1,
    hframe.2.2.2.2.1, hframe.2.2.2.2.2, fun h oks => ?_⟩
  rw [runSignals_buy_zero oks _ (hframe.1.trans h)]

/-- Witness for claim C9: a trader whose position is closed by an
inactive SELL order from the feed, with sticky `lastSignal = BUY`,
places no BUY order on subsequent BUY signals. -/
theorem setOrder_frame_witness :
    (runSignals (setOrder traderBuying orderSellDone) Signal.BUY [true]).2 = 0 :=
  (setOrder_frame traderBuying orderSellDone).2.2.2.2.2.2 rfl [true]

lemma pairwiseNoDecrease_iff : ∀ l : List ℚ,
    pairwiseNoDecrease l = true ↔ List.Chain' (fun a b => a ≤ b) l
  | [] => by simp [pairwiseNoDecrease]
  | [x] => by simp [pairwiseNoDecrease]
  | x :: y :: rest => by
    have ih := pairwiseNoDecrease_iff (y :: rest)
    simp only [pairwiseNoDecrease, List.chain'_cons]
    by_cases hxy : y < x
    · simp [hxy, not_le.mpr hxy]
    · simp [hxy, ih, not_lt.mp hxy]

lemma pairwiseNoIncrease_iff : ∀ l : List ℚ,
    pairwiseNoIncrease l = true ↔ List.Chain' (fun a b => b ≤ a) l
  | [] => by simp [pairwiseNoIncrease]
  | [x] => by simp [pairwiseNoIncrease]
  | x :: y :: rest => by
    have ih := pairwiseNoIncrease_iff (y :: rest)
    simp only [pairwiseNoIncrease, List.chain'_cons]
    by_cases hxy : x < y
    · simp [hxy, not_le.mpr hxy]
    · simp [hxy, ih, not_lt.mp hxy]

/-- Claim C3: `computeSignal` returns BUY only when every consecutive
pair of the last `upConfirmations + 1` histogram samples is
non-decreasing, and SELL only when every consecutive pair of the last
`downConfirmations + 1` histogram samples is non-increasing. -/
theorem computeSignal_confirmation_windows
    (slowPeriod upConfirmations downConfirmations : Nat) (samples : List ℚ) :
    (computeSignal slowPeriod upConfirmations downConfirmations samples =
        Signal.BUY →
      List.Chain' (fun a b => a ≤ b) (lastN (upConfirmations + 1) samples)) ∧
    (computeSignal slowPeriod upConfirmations downConfirmations samples =
        Signal.SELL →
      List.Chain' (fun a b => b ≤ a) (lastN (downConfirmations + 1) samples)) := by
  constructor <;> intro h <;> simp only [computeSignal] at h
  · split at h
    · split at h
      · rename_i hb
        exact (pairwiseNoDecrease_iff _).mp hb
      · split at h
        · exact Signal.noConfusion h
        · exact Signal.noConfusion h
    · exact Signal.noConfusion h
  · split at h
    · split at h
      · exact Signal.noConfusion h
      · split at h
        · rename_i hs
          exact (pairwiseNoIncrease_iff _).mp hs
        · exact Signal.noConfusion h
    · exact Signal.noConfusion h

/-- Witness for claim C3: a strictly increasing window on which BUY is
reported, with the non-decreasing chain extracted through the theorem. -/
theorem computeSignal_confirmation_windows_witness :
    List.Chain' (fun a b => a ≤ b) (lastN 2 [(0 : ℚ), 1, 2, 3]) :=
  (computeSignal_confirmation_windows 2 1 1 [0, 1, 2, 3]).1 (by decide)

/-- Claim C6: after warm-up, when both the BUY window (last
`upConfirmations + 1` samples non-decreasing) and the SELL window (last
`downConfirmations + 1` samples non-increasing) hold simultaneously,
`computeSignal` returns BUY — the BUY test is evaluated first and takes
priority, so SELL is never returned in that case. -/
theorem computeSignal_buy_priority
    (slowPeriod upConfirmations downConfirmations : Nat) (samples : List ℚ)
    (hwarm : slowPeriod < samples.length)
    (hup : List.Chain' (fun a b => a ≤ b) (lastN (upConfirmations + 1) samples))
    (_hdown : List.Chain' (fun a b => b ≤ a) (lastN (downConfirmations + 1) samples)) :
    computeSignal slowPeriod upConfirmations downConfirmations samples =
      Signal.BUY := by
  have hb : pairwiseNoDecrease (lastN (upConfirmations + 1) samples) = true :=
    (pairwiseNoDecrease_iff _).mpr hup
  simp [computeSignal, hwarm, hb]

/-- Witness for claim C6: on a constant histogram both windows hold and
BUY is returned. -/
theorem computeSignal_buy_priority_witness :
    (2 : Nat) < 4 ∧ computeSignal 2 1 2 [(0 : ℚ), 0, 0, 0] = Signal.BUY :=
  ⟨by decide,
   computeSignal_buy_priority 2 1 2 [0, 0, 0, 0] (by decide)
     ((pairwiseNoDecrease_iff (lastN 2 [0, 0, 0, 0])).mp (by decide))
     ((pairwiseNoIncrease_iff (lastN 3 [0, 0, 0, 0])).mp (by decide))⟩

lemma handleSignal_place_fail (t : Trader) (signal : Signal) :
    (handleSignal t signal false).1 = t := by
  unfold handleSignal
  split
  · simp
  · split <;> simp

/-- Claim C4: `MemeTrader.check` never rejects — the trailing catch makes
it total (modelled here by `check` being a total function) — and on any
upstream error (candle fetch, indicator computation, or order placement)
the trader's `state`, `lastSignal` and `position` keep their prior
values, so the next tick retries from an unchanged state. -/
theorem check_error_keeps_state
    (slowPeriod upConfirmations downConfirmations : Nat) (t : Trader)
    (run : Bool) (now : ℤ) (fetchRes : Except String (List Candle))
    (indicRes : Except String (List ℚ)) (placeOk : Bool)
    (h : (∃ e, fetchRes = Except.error e) ∨ (∃ e, indicRes = Except.error e) ∨
      placeOk = false) :
    (check slowPeriod upConfirmations downConfirmations t run now fetchRes
        indicRes placeOk).1.state = t.state ∧
    (check slowPeriod upConfirmations downConfirmations t run now fetchRes
        indicRes placeOk).1.lastSignal = t.lastSignal ∧
    (check slowPeriod upConfirmations downConfirmations t run now fetchRes
        indicRes placeOk).1.position = t.position := by
  unfold check
  by_cases hrun : run = false
  · simp [hrun]
  · rw [if_neg hrun]
    cases fetchRes with
    | error e => exact ⟨rfl, rfl, rfl⟩
    | ok newCandles =>
      cases indicRes with
      | error e => exact ⟨rfl, rfl, rfl⟩
      | ok samples =>
        have hp : placeOk = false := by
          rcases h with ⟨e, he⟩ | ⟨e, he⟩ | hp
          · exact absurd he (by simp)
          · exact absurd he (by simp)
          · exact hp
        subst hp
        rw [handleSignal_place_fail]
        exact ⟨rfl, rfl, rfl⟩

/-- Witness for claim C4: a concrete failed candle fetch leaves state,
lastSignal and position unchanged. -/
theorem check_error_keeps_state_witness :
    (check 2 1 2 traderBuying true 5 (Except.error "net down")
        (Except.ok [0]) true).1.state = traderBuying.state ∧
    (check 2 1 2 traderBuying true 5 (Except.error "net down")
        (Except.ok [0]) true).1.lastSignal = traderBuying.lastSignal ∧
    (check 2 1 2 traderBuying true 5 (Except.error "net down")
        (Except.ok [0]) true).1.position = traderBuying.position :=
  check_error_keeps_state 2 1 2 traderBuying true 5 (Except.error "net down")
    (Except.ok [0]) true (Or.inl ⟨"net down", rfl⟩)

end MemeTrader

namespace MyTradingBotApp

lemma any_symbol_eq (p : List Order) (s : String) :
    (p.any (fun item => item.symbol == s)) = true ↔
      s ∈ p.map (fun o => o.symbol) := by
  simp only [List.any_eq_true, List.mem_map, beq_iff_eq]

lemma keepFirstBySymbol_congr : ∀ (l : List Order) (seen1 seen2 : List String),
    (∀ s, s ∈ seen1 ↔ s ∈ seen2) →
    keepFirstBySymbol seen1 l = keepFirstBySymbol seen2 l
  | [], _, _, _ => rfl
  | o :: rest, seen1, seen2, h => by
    by_cases hm : o.symbol ∈ seen1
    · simp only [keepFirstBySymbol, if_pos hm, if_pos ((h _).mp hm)]
      exact keepFirstBySymbol_congr rest seen1 seen2 h
    · simp only [keepFirstBySymbol, if_neg hm,
        if_neg (fun hx => hm ((h _).mpr hx))]
      rw [keepFirstBySymbol_congr rest (o.symbol :: seen1) (o.symbol :: seen2)
        (fun s => by simp [h s])]

lemma foldl_extract_eq : ∀ (orders : List Order) (p : List Order),
    orders.foldl
      (fun p order =>
        if p.any (fun item => item.symbol == order.symbol) then p
        else p ++ [order]) p
      = p ++ keepFirstBySymbol (p.map (fun o => o.symbol)) orders
  | [], p => by simp [keepFirstBySymbol]
  | o :: rest, p => by
    rw [List.foldl_cons]
    by_cases hm : o.symbol ∈ p.map (fun o => o.symbol)
    · rw [if_pos ((any_symbol_eq p o.symbol).mpr hm)]
      rw [foldl_extract_eq rest p]
      simp only [keepFirstBySymbol, if_pos hm]
    · rw [if_neg (fun hx => hm ((any_symbol_eq p o.symbol).mp hx))]
      rw [foldl_extract_eq rest (p ++ [o])]
      simp only [keepFirstBySymbol, if_neg hm]
      have hcg := keepFirstBySymbol_congr rest
        ((p ++ [o]).map (fun o => o.symbol)) (o.symbol :: p.map (fun o => o.symbol))
        (fun s => by simp [or_comm])
      rw [hcg, List.append_assoc]
      rfl

lemma extractLastOrders_eq (orders : List Order) :
    extractLastOrders orders = keepFirstBySymbol [] orders := by
  have h := foldl_extract_eq orders []
  simpa [extractLastOrders] using h

lemma keepFirstBySymbol_notin_seen : ∀ (l : List Order) (seen : List String)
    (o : Order), o ∈ keepFirstBySymbol seen l → o.symbol ∉ seen
  | [], seen, o, h => by simp [keepFirstBySymbol] at h
  | x :: rest, seen, o, h => by
    by_cases hm : x.symbol ∈ seen
    · simp only [keepFirstBySymbol, if_pos hm] at h
      exact keepFirstBySymbol_notin_seen rest seen o h
    · simp only [keepFirstBySymbol, if_neg hm] at h
      rcases List.mem_cons.mp h with rfl | h2
      · exact hm
      · have h3 := keepFirstBySymbol_notin_seen rest (x.symbol :: seen) o h2
        exact fun hs => h3 (by simp [hs])

lemma keepFirstBySymbol_pairwise : ∀ (l : List Order) (seen : List String),
    (keepFirstBySymbol seen l).Pairwise (fun a b => a.symbol ≠ b.symbol)
  | [], seen => by simp [keepFirstBySymbol]
  | x :: rest, seen => by
    by_cases hm : x.symbol ∈ seen
    · simp only [keepFirstBySymbol, if_pos hm]
      exact keepFirstBySymbol_pairwise rest seen
    · simp only [keepFirstBySymbol, if_neg hm]
      refine List.Pairwise.cons ?_ (keepFirstBySymbol_pairwise rest (x.symbol :: seen))
      intro b hb hEq
      have h3 := keepFirstBySymbol_notin_seen rest (x.symbol :: seen) b hb
      exact h3 (by simp [hEq.symm])

lemma keepFirstBySymbol_covers : ∀ (l : List Order) (seen : List String)
    (o : Order), o ∈ l →
    o.symbol ∈ seen ∨ ∃ o2 ∈ keepFirstBySymbol seen l, o2.symbol = o.symbol
  | [], _, _, h => absurd h (by simp)
  | x :: rest, seen, o, h => by
    by_cases hm : x.symbol ∈ seen
    · simp only [keepFirstBySymbol, if_pos hm]
      rcases List.mem_cons.mp h with rfl | h2
      · exact Or.inl hm
      · exact keepFirstBySymbol_covers rest seen o h2
    · simp only [keepFirstBySymbol, if_neg hm]
      rcases List.mem_cons.mp h with rfl | h2
      · exact Or.inr ⟨o, by simp⟩
      · rcases keepFirstBySymbol_covers rest (x.symbol :: seen) o h2 with
          hseen | ⟨o2, ho2, hsym⟩
        · rcases List.mem_cons.mp hseen with hEq | hseen2
          · exact Or.inr ⟨x, by simp, hEq.symm⟩
          · exact Or.inl hseen2
        · exact Or.inr ⟨o2, by simp [ho2], hsym⟩

lemma keepFirstBySymbol_first : ∀ (l : List Order) (seen : List String)
    (o : Order), o ∈ keepFirstBySymbol seen l →
    l.find? (fun x => x.symbol == o.symbol) = some o
  | [], seen, o, h => absurd h (by simp [keepFirstBySymbol])
  | x :: rest, seen, o, h => by
    by_cases hm : x.symbol ∈ seen
    · simp only [keepFirstBySymbol, if_pos hm] at h
      have hno := keepFirstBySymbol_notin_seen rest seen o h
      have hne : x.symbol ≠ o.symbol := fun hEq => hno (hEq ▸ hm)
      rw [List.find?_cons_of_neg _ (by simp [hne])]
      exact keepFirstBySymbol_first rest seen o h
    · simp only [keepFirstBySymbol, if_neg hm] at h
      rcases List.mem_cons.mp h with rfl | h2
      · rw [List.find?_cons_of_pos _ (by simp)]
      · have hno := keepFirstBySymbol_notin_seen rest (x.symbol :: seen) o h2
        have hne : x.symbol ≠ o.symbol := fun hEq => hno (by simp [hEq.symm])
        rw [List.find?_cons_of_neg _ (by simp [hne])]
        exact keepFirstBySymbol_first rest (x.symbol :: seen) o h2

/-- Claim C5 (counterexample): the reconciliation reduce keeps the FIRST
order of a symbol in list order, not the newest regardless of list order.
Presenting the older A-USDT order first makes the older order win even
though a newer one follows. -/
theorem extractLastOrders_not_newest :
    extractLastOrders [orderOldA, orderNewA] = [orderOldA] ∧
    orderOldA.createdAt < orderNewA.createdAt := by
  decide

/-- Claim C5 (amended): the reconciliation step keeps exactly one order
per symbol appearing in the input — the FIRST occurrence in list order
(which is the most recent one exactly when the exchange presents orders
most-recent-first, as `getOrdersList` does): the result equals the
keep-first-occurrence recursion, has pairwise-distinct symbols, covers
every input symbol, and each kept order is the first input order bearing
its symbol. -/
theorem extractLastOrders_first_occurrence (orders : List Order) :
    extractLastOrders orders = keepFirstBySymbol [] orders ∧
    (extractLastOrders orders).Pairwise (fun a b => a.symbol ≠ b.symbol) ∧
    (∀ o ∈ orders, ∃ o2 ∈ extractLastOrders orders, o2.symbol = o.symbol) ∧
    (∀ o ∈ extractLastOrders orders,
      orders.find? (fun x => x.symbol == o.symbol) = some o) := by
  have he := extractLastOrders_eq orders
  refine ⟨he, ?_, ?_, ?_⟩
  · rw [he]; exact keepFirstBySymbol_pairwise orders []
  · intro o ho
    rcases keepFirstBySymbol_covers orders [] o ho with hseen | ⟨o2, h1, h2⟩
    · simp at hseen
    · exact ⟨o2, by rw [he]; exact h1, h2⟩
  · intro o ho
    exact keepFirstBySymbol_first orders [] o (he ▸ ho)

/-- Witness for claim C5 (amended) at a concrete two-order list. -/
theorem extractLastOrders_first_occurrence_witness :
    ∃ o2 ∈ extractLastOrders [orderOldA, orderNewA],
      o2.symbol = orderNewA.symbol :=
  (extractLastOrders_first_occurrence [orderOldA, orderNewA]).2.2.1
    orderNewA (by simp)

end MyTradingBotApp

namespace MyTradingBotApp

/-- Claim C7 (counterexample): a failed stats fetch for one symbol of the
slice rejects the promise chain and skips the remaining symbols of the
same slice for that tick.  With the slice [A-USDT, B-USDT] and a fetcher
failing only on A-USDT, B-USDT's stats are NOT written even though its
own fetch would succeed. -/
theorem fetchSliceStats_abort_counterexample :
    (fetchSliceStats fetchFailA ["A-USDT", "B-USDT"] emptyStats).1 "B-USDT"
        = none ∧
    fetchFailA "B-USDT" = Except.ok statB := by
  constructor
  · rfl
  · rfl

/-- Claim C7 (amended): when fetching one symbol's statistics fails, that
symbol and every LATER symbol of the same slice are skipped for that tick
(their cache entries are left unchanged, so they remain stale and are
retried next tick); symbols fetched before the failure keep their fresh
stats, and the error is only reported to the surrounding catch, so the
tick itself continues. -/
theorem fetchSliceStats_error_skips_rest
    (fetch : String → Except String Stats) :
    ∀ (pre : List String) (bad : String) (post : List String)
      (cache : StatsMap) (e : String),
      (∀ s ∈ pre, ∃ v, fetch s = Except.ok v) →
      fetch bad = Except.error e →
      (fetchSliceStats fetch (pre ++ bad :: post) cache).2 = some e ∧
      ∀ s, s ∉ pre →
        (fetchSliceStats fetch (pre ++ bad :: post) cache).1 s = cache s
  | [], bad, post, cache, e, _, hbad => by
    simp [fetchSliceStats, hbad]
  | p :: pre, bad, post, cache, e, hpre, hbad => by
    obtain ⟨v, hv⟩ := hpre p (by simp)
    have ih := fetchSliceStats_error_skips_rest fetch pre bad post
      (setStat cache p v) e (fun s hs => hpre s (by simp [hs])) hbad
    constructor
    · simpa [fetchSliceStats, hv] using ih.1
    · intro s hs
      have hs1 : s ∉ pre := fun hmem => hs (by simp [hmem])
      have hsp : s ≠ p := fun hEq => hs (by simp [hEq])
      have h2 := ih.2 s hs1
      have hstep : fetchSliceStats fetch ((p :: pre) ++ bad :: post) cache
          = fetchSliceStats fetch (pre ++ bad :: post) (setStat cache p v) := by
        simp [fetchSliceStats, hv]
      rw [hstep, h2]
      simp [setStat, hsp]

/-- Witness for claim C7 (amended) at a concrete slice. -/
theorem fetchSliceStats_error_skips_rest_witness :
    (fetchSliceStats fetchFailA (["B-USDT"] ++ "A-USDT" :: ["C-USDT"])
        emptyStats).2 = some "boom" ∧
    (fetchSliceStats fetchFailA (["B-USDT"] ++ "A-USDT" :: ["C-USDT"])
        emptyStats).1 "C-USDT" = emptyStats "C-USDT" :=
  ⟨(fetchSliceStats_error_skips_rest fetchFailA ["B-USDT"] "A-USDT"
      ["C-USDT"] emptyStats "boom"
      (fun s hs => ⟨statB, by
        have hEq : s = "B-USDT" := by simpa using hs
        rw [hEq]; rfl⟩)
      (by rfl)).1,
   (fetchSliceStats_error_skips_rest fetchFailA ["B-USDT"] "A-USDT"
      ["C-USDT"] emptyStats "boom"
      (fun s hs => ⟨statB, by
        have hEq : s = "B-USDT" := by simpa using hs
        rw [hEq]; rfl⟩)
      (by rfl)).2 "C-USDT" (by decide)⟩

/-- Claim C8: each universe refresh attempts to fetch statistics for at
most `ceil(universe_size / maxAge) * 2` symbols, where `universe_size`
counts the symbols passing the static inclusion filter (before the
staleness filter); in particular for a universe of 500 and maxAge 60 the
slice size is 18. -/
theorem updateStats_slice_bound (ignore force : List String) (maxAge : Nat)
    (now : ℤ) (statsLoaded : Bool) (stats : StatsMap)
    (symbols : List SymbolDesc) (fetch : String → Except String Stats) :
    (updateStats ignore force maxAge now statsLoaded stats
        (Except.ok symbols) fetch).2.2.length ≤
      sliceSize (staticFilter ignore force symbols).length maxAge ∧
    sliceSize 500 60 = 18 := by
  constructor
  · simp only [updateStats, List.length_map, List.length_take]
    exact min_le_left _ _
  · decide

lemma updateStats_keeps_loaded (ignore force : List String) (maxAge : Nat)
    (now : ℤ) (m : StatsMap) (sr : Except String (List SymbolDesc))
    (fetch : String → Except String Stats) :
    (updateStats ignore force maxAge now true m sr fetch).1 = true := by
  cases sr <;> simp [updateStats]

lemma runTicks_keeps_loaded : ∀ (envs : List TickEnv)
    (ignore force : List String) (maxAge : Nat) (m : StatsMap),
    (runTicks ignore force maxAge envs (true, m)).1 = true
  | [], _, _, _, _ => rfl
  | e :: rest, ig, f, mA, m => by
    simp only [runTicks]
    rw [updateStats_keeps_loaded ig f mA e.now m e.symbolsRes e.fetch]
    exact runTicks_keeps_loaded rest ig f mA _

/-- Claim C10: `statsLoaded` is latched.  It becomes true on any tick
whose staleness filter leaves nothing to refresh; once true, no later
sequence of ticks ever resets it (even if every cached statistic goes
stale again); and with `statsLoaded = true` the `createTraders` body is
never suppressed. -/
theorem statsLoaded_latched (ignore force : List String) (maxAge : Nat) :
    (∀ (envs : List TickEnv) (m : StatsMap),
      (runTicks ignore force maxAge envs (true, m)).1 = true) ∧
    (∀ (now : ℤ) (statsLoaded : Bool) (m : StatsMap)
        (symbols : List SymbolDesc) (fetch : String → Except String Stats),
      staleFilter m now maxAge (staticFilter ignore force symbols) = [] →
      (updateStats ignore force maxAge now statsLoaded m
          (Except.ok symbols) fetch).1 = true) ∧
    (∀ (minVolume maxVolume minPrice minChange : ℚ)
        (hasTrader isRunning : String → Bool) (stats : List Stats),
      createTraders true minVolume maxVolume minPrice minChange force
          hasTrader isRunning stats ≠ none) := by
  refine ⟨fun envs m => runTicks_keeps_loaded envs ignore force maxAge m,
    fun now statsLoaded m symbols fetch h => ?_, fun _ _ _ _ _ _ _ => ?_⟩
  · cases statsLoaded <;> simp [updateStats, h]
  · simp [createTraders]

/-- Witness for claim C10 at concrete inputs. -/
theorem statsLoaded_latched_witness :
    (runTicks [] [] 60 [] (true, emptyStats)).1 = true ∧
    (updateStats [] [] 60 0 false emptyStats (Except.ok []) fetchFailA).1
        = true ∧
    createTraders true 0 0 0 0 [] (fun _ => false) (fun _ => false) []
        ≠ none :=
  ⟨(statsLoaded_latched [] [] 60).1 [] emptyStats,
   (statsLoaded_latched [] [] 60).2.1 0 false emptyStats [] fetchFailA rfl,
   (statsLoaded_latched [] [] 60).2.2 0 0 0 0 (fun _ => false)
     (fun _ => false) []⟩

end MyTradingBotApp

namespace MemeTrader

/-- Witness for claim C1 (amended) at a concrete order. -/
theorem setOrder_table_unguarded_witness :
    (setOrder traderIdle orderNewA).state = orderTargetState orderNewA :=
  (setOrder_table_unguarded traderIdle orderNewA).1

end MemeTrader

namespace MyTradingBotApp

/-- Witness for claim C8 at the spec's concrete numbers. -/
theorem updateStats_slice_bound_witness :
    sliceSize 500 60 = 18 :=
  (updateStats_slice_bound [] [] 60 0 false emptyStats [] fetchFailA).2

end MyTradingBotApp
